import Mathlib

/-!
Verification of the payx transaction engine and webhook delivery worker.

This file shallowly embeds the core of `crates/payx-server` in Lean:

* `src/domain/*.rs` — data model (accounts, transactions, ledger entries,
  webhook outbox rows, API keys, businesses);
* `src/error.rs` — error taxonomy and its HTTP mapping;
* `src/api/handlers/transactions.rs` — the `create` handler with
  `execute_credit` / `execute_debit` / `execute_transfer`;
* `src/api/middleware/auth.rs` — bearer-key authentication middleware;
* `src/workers/webhook_processor.rs` — `deliver_webhook` / `schedule_retry`;
* `src/domain/webhook.rs` — `sign_payload` (HMAC-SHA256 request signing).

Machine integers are modelled as `Nat`/`Int` (Rust `rust_decimal::Decimal`
amounts are exact decimals; the operations used here — addition,
subtraction, comparison — are faithfully modelled by `Int`).  Database
state is passed explicitly; a Rust function returning
`Result<T, AppError>` becomes a Lean function into `Except AppError T`,
and an `Err` result models a rolled-back transaction (no state change).
-/

/-! ## Identifiers

Rust `uuid::Uuid` wraps `[u8; 16]` and derives `Ord`, which compares the
byte arrays lexicographically (unsigned byte-wise).  We model a Uuid as a
list of byte values and translate Rust `<` on `Uuid` as `bytesLt`. -/

abbrev Uuid : Type := List Nat

/-- Lexicographic (element-wise, unsigned) comparison of byte lists: the
translation of the derived `Ord` on Rust `[u8; 16]` (hence on `Uuid`). -/
def bytesLt : List Nat → List Nat → Bool
  | [], [] => false
  | [], _ :: _ => true
  | _ :: _, [] => false
  | a :: as, b :: bs => if a < b then true else if b < a then false else bytesLt as bs

/-- The unsigned big-endian 128-bit value an id's bytes denote. -/
def toNatBE : List Nat → Nat
  | [] => 0
  | b :: bs => b * 256 ^ bs.length + toNatBE bs

/-! ## Money

`rust_decimal::Decimal` is an exact fixed-point decimal.  The engine only
adds, subtracts and compares amounts, so `Int` is a faithful carrier. -/

abbrev Decimal : Type := Int

/-! ## Domain model (src/domain) -/

/-- Model of `domain/transaction.rs`: `TransactionType`. -/
inductive TransactionType where
  | Credit
  | Debit
  | Transfer
deriving DecidableEq, BEq

/-- Model of `domain/transaction.rs`: `TransactionStatus`. -/
inductive TransactionStatus where
  | Pending
  | Completed
  | Failed
deriving DecidableEq, BEq

/-- Model of `domain/account.rs` / table `accounts`. -/
structure Account where
  id : Uuid
  business_id : Uuid
  account_type : String
  currency : String
  balance : Decimal
  available_balance : Decimal
  version : Int
  created_at : Int
  updated_at : Int
deriving DecidableEq

/-- Model of `domain/transaction.rs`: `Transaction` / table `transactions`.
`metadata` is an opaque JSON blob, carried as an uninterpreted string. -/
structure Transaction where
  id : Uuid
  idempotency_key : Option String
  tx_type : TransactionType
  status : TransactionStatus
  source_account_id : Option Uuid
  destination_account_id : Option Uuid
  amount : Decimal
  currency : String
  description : Option String
  metadata : Option String
  created_at : Int
  completed_at : Option Int
deriving DecidableEq

/-- Model of `domain/transaction.rs`: `LedgerEntry` / table `ledger_entries`. -/
structure LedgerEntry where
  id : Uuid
  transaction_id : Uuid
  account_id : Uuid
  entry_type : String
  amount : Decimal
  balance_after : Decimal
  created_at : Int
deriving DecidableEq

/-- Model of `domain/webhook.rs`: `WebhookOutbox` / table `webhook_outbox`.
The `payload` JSON column is modelled by its serialized bytes (the worker
serializes it with `serde_json::to_vec` before transmission). -/
structure WebhookOutbox where
  id : Uuid
  business_id : Uuid
  event_type : String
  payload : List Nat
  status : String
  attempts : Int
  max_attempts : Int
  next_attempt_at : Int
  last_error : Option String
  created_at : Int
  processed_at : Option Int
deriving DecidableEq

/-- Model of `domain/business.rs`: the fields the webhook worker consumes. -/
structure Business where
  id : Uuid
  name : String
  email : String
  webhook_url : Option String
  webhook_secret : Option String
deriving DecidableEq

/-- Model of `domain/api_key.rs`: `ApiKey` (the Argon2 hash is opaque). -/
structure ApiKey where
  id : Uuid
  business_id : Uuid
  key_hash : String
  key_pfx : String
  name : Option String
  rate_limit_per_minute : Int
  created_at : Int
  expires_at : Option Int
  revoked_at : Option Int
  last_used_at : Option Int
deriving DecidableEq

/-- Model of `domain/transaction.rs`: `CreateTransactionRequest`. -/
structure CreateTransactionRequest where
  tx_type : TransactionType
  source_account_id : Option Uuid
  destination_account_id : Option Uuid
  amount : Decimal
  currency : String
  description : Option String
  metadata : Option String
deriving DecidableEq

/-! ## Errors (src/error.rs) -/

/-- Model of `error.rs`: `AppError`.  `Database`, `Serialization` and `Internal`
carry only their message here. -/
inductive AppError where
  | InsufficientFunds (account_id : Uuid) (available : Decimal) (requested : Decimal)
  | AccountNotFound (id : Uuid)
  | BusinessNotFound (id : Uuid)
  | TransactionNotFound (id : Uuid)
  | NotFound (msg : String)
  | CurrencyMismatch (from_currency : String) (to_currency : String)
  | IdempotencyConflict (existing_id : Uuid) (idempotency_key : String)
  | InvalidApiKey
  | RateLimitExceeded
  | Validation (msg : String)
  | Database (msg : String)
  | Serialization (msg : String)
  | Internal (msg : String)
deriving DecidableEq

/-- Model of `error.rs` `IntoResponse`: the HTTP status for each error. -/
def errorHttpStatus : AppError → Nat
  | .InsufficientFunds _ _ _ => 422
  | .AccountNotFound _ => 404
  | .BusinessNotFound _ => 404
  | .TransactionNotFound _ => 404
  | .NotFound _ => 404
  | .CurrencyMismatch _ _ => 400
  | .IdempotencyConflict _ _ => 409
  | .InvalidApiKey => 401
  | .RateLimitExceeded => 429
  | .Validation _ => 400
  | .Database _ => 500
  | .Serialization _ => 500
  | .Internal _ => 500

/-- Model of `error.rs` `IntoResponse`: the machine-readable error code. -/
def errorCode : AppError → String
  | .InsufficientFunds _ _ _ => "insufficient_funds"
  | .AccountNotFound _ => "account_not_found"
  | .BusinessNotFound _ => "business_not_found"
  | .TransactionNotFound _ => "transaction_not_found"
  | .NotFound _ => "not_found"
  | .CurrencyMismatch _ _ => "currency_mismatch"
  | .IdempotencyConflict _ _ => "idempotency_conflict"
  | .InvalidApiKey => "invalid_api_key"
  | .RateLimitExceeded => "rate_limit_exceeded"
  | .Validation _ => "validation_error"
  | .Database _ => "database_error"
  | .Serialization _ => "serialization_error"
  | .Internal _ => "internal_error"

/-- Model of `error.rs` `IntoResponse`: the `details` object, present only for
`InsufficientFunds`, carrying the available and requested amounts (the
JSON layer renders each as its decimal string). -/
def errorDetails : AppError → Option (Decimal × Decimal)
  | .InsufficientFunds _ available requested => some (available, requested)
  | _ => none

/-! ## Database state and the transaction engine
(src/api/handlers/transactions.rs)

Each handler runs inside one SQL transaction; an `Err` return rolls it
back, which the embedding renders by returning `Except.error` with no new
state.  Row reads (`SELECT .. WHERE id = $1`) are `List.find?`; row
updates (`UPDATE .. WHERE id = $1`) map over all rows, rewriting the
matching ones. -/

structure Db where
  accounts : List Account
  transactions : List Transaction
  ledger_entries : List LedgerEntry
  outbox : List WebhookOutbox
deriving DecidableEq

/-- Model of `SELECT * FROM accounts WHERE id = $1` (`FOR UPDATE` is a lock, not a
data effect). -/
def findAccount (accounts : List Account) (i : Uuid) : Option Account :=
  accounts.find? (fun a => a.id == i)

/-- Model of `UPDATE accounts SET balance = $1, available_balance = $1,
version = version + 1, updated_at = $2 WHERE id = $3`. -/
def updateAccountBalance (accounts : List Account) (i : Uuid) (newBal : Decimal)
    (now : Int) : List Account :=
  accounts.map (fun a =>
    if a.id == i then
      { a with balance := newBal, available_balance := newBal,
               version := a.version + 1, updated_at := now }
    else a)

/-- The identifiers the handler draws with `Uuid::new_v4()` during one
`create` call, plus the serialized webhook payloads it builds (these
embed a fresh uuid and the wall clock, so they enter as inputs). -/
structure FreshIds where
  txn_id : Uuid
  le1_id : Uuid
  le2_id : Uuid
  ob1_id : Uuid
  ob2_id : Uuid
  payload1 : List Nat
  payload2 : List Nat
deriving DecidableEq

/-- Model of `enqueue_webhook`: `INSERT INTO webhook_outbox (..) VALUES
($1, $2, $3, $4, 'pending', 0, 5, NOW(), NOW())`. -/
def enqueueWebhook (ob_id : Uuid) (business_id : Uuid) (event_type : String)
    (payload : List Nat) (now : Int) : WebhookOutbox :=
  { id := ob_id, business_id := business_id, event_type := event_type,
    payload := payload, status := "pending", attempts := 0, max_attempts := 5,
    next_attempt_at := now, last_error := none, created_at := now,
    processed_at := none }

/-- Model of `execute_credit`. -/
def executeCredit (db : Db) (req : CreateTransactionRequest)
    (idempotency_key : Option String) (ids : FreshIds) (now : Int) :
    Except AppError (Transaction × Db) :=
  match req.destination_account_id with
  | none => .error (.Validation "destination_account_id required for credit")
  | some dest_id =>
    match findAccount db.accounts dest_id with
    | none => .error (.AccountNotFound dest_id)
    | some dest =>
      if dest.currency ≠ req.currency then
        .error (.CurrencyMismatch req.currency dest.currency)
      else
        let new_balance := dest.balance + req.amount
        let accounts1 := updateAccountBalance db.accounts dest_id new_balance now
        let txn : Transaction :=
          { id := ids.txn_id, idempotency_key := idempotency_key,
            tx_type := .Credit, status := .Completed,
            source_account_id := none, destination_account_id := some dest_id,
            amount := req.amount, currency := req.currency,
            description := req.description, metadata := req.metadata,
            created_at := now, completed_at := some now }
        let le : LedgerEntry :=
          { id := ids.le1_id, transaction_id := ids.txn_id, account_id := dest_id,
            entry_type := "credit", amount := req.amount,
            balance_after := new_balance, created_at := now }
        let ob := enqueueWebhook ids.ob1_id dest.business_id
          "transaction.completed" ids.payload1 now
        .ok (txn, { accounts := accounts1,
                    transactions := db.transactions ++ [txn],
                    ledger_entries := db.ledger_entries ++ [le],
                    outbox := db.outbox ++ [ob] })

/-- Model of `execute_debit`. -/
def executeDebit (db : Db) (req : CreateTransactionRequest)
    (idempotency_key : Option String) (ids : FreshIds) (now : Int) :
    Except AppError (Transaction × Db) :=
  match req.source_account_id with
  | none => .error (.Validation "source_account_id required for debit")
  | some source_id =>
    match findAccount db.accounts source_id with
    | none => .error (.AccountNotFound source_id)
    | some source =>
      if source.currency ≠ req.currency then
        .error (.CurrencyMismatch source.currency req.currency)
      else if source.available_balance < req.amount then
        .error (.InsufficientFunds source_id source.available_balance req.amount)
      else
        let new_balance := source.balance - req.amount
        let accounts1 := updateAccountBalance db.accounts source_id new_balance now
        let txn : Transaction :=
          { id := ids.txn_id, idempotency_key := idempotency_key,
            tx_type := .Debit, status := .Completed,
            source_account_id := some source_id, destination_account_id := none,
            amount := req.amount, currency := req.currency,
            description := req.description, metadata := req.metadata,
            created_at := now, completed_at := some now }
        let le : LedgerEntry :=
          { id := ids.le1_id, transaction_id := ids.txn_id, account_id := source_id,
            entry_type := "debit", amount := req.amount,
            balance_after := new_balance, created_at := now }
        let ob := enqueueWebhook ids.ob1_id source.business_id
          "transaction.completed" ids.payload1 now
        .ok (txn, { accounts := accounts1,
                    transactions := db.transactions ++ [txn],
                    ledger_entries := db.ledger_entries ++ [le],
                    outbox := db.outbox ++ [ob] })

/-- Model of `execute_transfer`'s lock ordering: `if source_id < dest_id
{ (source_id, dest_id) } else { (dest_id, source_id) }`, where `<` is the
derived byte-wise `Ord` on `Uuid`. -/
def lockPair (source_id dest_id : Uuid) : Uuid × Uuid :=
  if bytesLt source_id dest_id then (source_id, dest_id) else (dest_id, source_id)

/-- Model of `execute_transfer`.  Note the source has no `source ≠ destination`
check; both balance updates run in sequence, the second overwriting the
first when the two ids coincide. -/
def executeTransfer (db : Db) (req : CreateTransactionRequest)
    (idempotency_key : Option String) (ids : FreshIds) (now : Int) :
    Except AppError (Transaction × Db) :=
  match req.source_account_id with
  | none => .error (.Validation "source_account_id required for transfer")
  | some source_id =>
  match req.destination_account_id with
  | none => .error (.Validation "destination_account_id required for transfer")
  | some dest_id =>
    let pr := lockPair source_id dest_id
    match findAccount db.accounts pr.1 with
    | none => .error (.AccountNotFound pr.1)
    | some first =>
    match findAccount db.accounts pr.2 with
    | none => .error (.AccountNotFound pr.2)
    | some second =>
      let sd := if pr.1 == source_id then (first, second) else (second, first)
      let source := sd.1
      let dest := sd.2
      if source.currency ≠ req.currency then
        .error (.CurrencyMismatch source.currency req.currency)
      else if dest.currency ≠ req.currency then
        .error (.CurrencyMismatch req.currency dest.currency)
      else if source.available_balance < req.amount then
        .error (.InsufficientFunds source_id source.available_balance req.amount)
      else
        let source_new_balance := source.balance - req.amount
        let dest_new_balance := dest.balance + req.amount
        let accounts1 := updateAccountBalance db.accounts source_id source_new_balance now
        let accounts2 := updateAccountBalance accounts1 dest_id dest_new_balance now
        let txn : Transaction :=
          { id := ids.txn_id, idempotency_key := idempotency_key,
            tx_type := .Transfer, status := .Completed,
            source_account_id := some source_id,
            destination_account_id := some dest_id,
            amount := req.amount, currency := req.currency,
            description := req.description, metadata := req.metadata,
            created_at := now, completed_at := some now }
        let le1 : LedgerEntry :=
          { id := ids.le1_id, transaction_id := ids.txn_id, account_id := source_id,
            entry_type := "debit", amount := req.amount,
            balance_after := source_new_balance, created_at := now }
        let le2 : LedgerEntry :=
          { id := ids.le2_id, transaction_id := ids.txn_id, account_id := dest_id,
            entry_type := "credit", amount := req.amount,
            balance_after := dest_new_balance, created_at := now }
        let ob1 := enqueueWebhook ids.ob1_id source.business_id
          "transaction.completed" ids.payload1 now
        let obs := if source.business_id == dest.business_id then [ob1]
          else [ob1, enqueueWebhook ids.ob2_id dest.business_id
                  "transaction.completed" ids.payload2 now]
        .ok (txn, { accounts := accounts2,
                    transactions := db.transactions ++ [txn],
                    ledger_entries := db.ledger_entries ++ [le1, le2],
                    outbox := db.outbox ++ obs })

/-- Model of `find_by_idempotency_key`: `SELECT * FROM transactions WHERE
idempotency_key = $1` (SQL `= $1` never matches a NULL key). -/
def findByIdempotencyKey (db : Db) (key : String) : Option Transaction :=
  db.transactions.find? (fun t => t.idempotency_key == some key)

/-- The per-type dispatch in `create` (`match req.tx_type`). -/
def applyTx (db : Db) (req : CreateTransactionRequest)
    (idempotency_key : Option String) (ids : FreshIds) (now : Int) :
    Except AppError (Transaction × Db) :=
  match req.tx_type with
  | .Credit => executeCredit db req idempotency_key ids now
  | .Debit => executeDebit db req idempotency_key ids now
  | .Transfer => executeTransfer db req idempotency_key ids now

/-- The `create` handler: amount precondition, idempotency pre-check,
then dispatch.  The result carries the HTTP status (200 replay /
201 fresh), the transaction backing the response body, and the database
state after commit. -/
def create (db : Db) (idempotency_key : Option String)
    (req : CreateTransactionRequest) (ids : FreshIds) (now : Int) :
    Except AppError (Nat × Transaction × Db) :=
  if req.amount ≤ 0 then
    .error (.Validation "amount must be positive")
  else
    match idempotency_key.bind (fun k => findByIdempotencyKey db k) with
    | some existing => .ok (200, existing, db)
    | none =>
      match applyTx db req idempotency_key ids now with
      | .error e => .error e
      | .ok (txn, db2) => .ok (201, txn, db2)

/-! ## SHA-256 and HMAC (the `sha2` / `hmac` crates as used by
`domain/webhook.rs::sign_payload`)

Words are `Nat` values reduced modulo `2^32`; messages are byte lists. -/

/-- Reduce to a 32-bit word. -/
def w32 (x : Nat) : Nat := x % 4294967296

/-- Right rotation within 32 bits. -/
def rotr32 (n x : Nat) : Nat := w32 ((x >>> n) ||| (x <<< (32 - n)))

/-- Bitwise complement within 32 bits. -/
def not32 (x : Nat) : Nat := x ^^^ 4294967295

/-- Round constants of SHA-256 (decimal). -/
def shaK : List Nat :=
  [1116352408, 1899447441, 3049323471, 3921009573, 961987163,
   1508970993, 2453635748, 2870763221, 3624381080, 310598401,
   607225278, 1426881987, 1925078388, 2162078206, 2614888103,
   3248222580, 3835390401, 4022224774, 264347078, 604807628,
   770255983, 1249150122, 1555081692, 1996064986, 2554220882,
   2821834349, 2952996808, 3210313671, 3336571891, 3584528711,
   113926993, 338241895, 666307205, 773529912, 1294757372,
   1396182291, 1695183700, 1986661051, 2177026350, 2456956037,
   2730485921, 2820302411, 3259730800, 3345764771, 3516065817,
   3600352804, 4094571909, 275423344, 430227734, 506948616,
   659060556, 883997877, 958139571, 1322822218, 1537002063,
   1747873779, 1955562222, 2024104815, 2227730452, 2361852424,
   2428436474, 2756734187, 3204031479, 3329325298]

/-- Big-endian bytes of a value, `n` bytes wide. -/
def natToBytesBE (n : Nat) (x : Nat) : List Nat :=
  (List.range n).map (fun i => (x >>> (8 * (n - 1 - i))) % 256)

/-- Padding of SHA-256: append `0x80`, zero bytes to 56 mod 64, then the
bit length as 8 big-endian bytes. -/
def shaPad (msg : List Nat) : List Nat :=
  let zeros := (119 - msg.length % 64) % 64
  msg ++ [0x80] ++ List.replicate zeros 0 ++ natToBytesBE 8 (msg.length * 8)

/-- Group bytes four at a time into big-endian 32-bit words. -/
def bytesToWords : List Nat → List Nat
  | a :: b :: c :: d :: rest => (((a * 256 + b) * 256 + c) * 256 + d) :: bytesToWords rest
  | _ => []

/-- Split a padded message into 64-byte blocks. -/
def toBlocks : List Nat → List (List Nat)
  | [] => []
  | x :: xs => (x :: xs).take 64 :: toBlocks ((x :: xs).drop 64)
termination_by l => l.length
decreasing_by simp; omega

/-- Extend 16 message words to the 64-word schedule. -/
def shaSchedule (ws : List Nat) : Array Nat :=
  (List.range 48).foldl
    (fun w i =>
      let s0 := rotr32 7 (w.getD (i + 1) 0) ^^^ rotr32 18 (w.getD (i + 1) 0) ^^^
        (w.getD (i + 1) 0 >>> 3)
      let s1 := rotr32 17 (w.getD (i + 14) 0) ^^^ rotr32 19 (w.getD (i + 14) 0) ^^^
        (w.getD (i + 14) 0 >>> 10)
      w.push (w32 (w.getD i 0 + s0 + w.getD (i + 9) 0 + s1)))
    ws.toArray

/-- The eight working variables of the compression loop. -/
structure Sha8 where
  a : Nat
  b : Nat
  c : Nat
  d : Nat
  e : Nat
  f : Nat
  g : Nat
  h : Nat

/-- One compression round. -/
def shaRound (w : Array Nat) (st : Sha8) (i : Nat) : Sha8 :=
  let s1 := rotr32 6 st.e ^^^ rotr32 11 st.e ^^^ rotr32 25 st.e
  let ch := (st.e &&& st.f) ^^^ (not32 st.e &&& st.g)
  let temp1 := w32 (st.h + s1 + ch + shaK.getD i 0 + w.getD i 0)
  let s0 := rotr32 2 st.a ^^^ rotr32 13 st.a ^^^ rotr32 22 st.a
  let maj := (st.a &&& st.b) ^^^ (st.a &&& st.c) ^^^ (st.b &&& st.c)
  let temp2 := w32 (s0 + maj)
  { a := w32 (temp1 + temp2), b := st.a, c := st.b, d := st.c,
    e := w32 (st.d + temp1), f := st.e, g := st.f, h := st.g }

/-- Compress one 64-byte block into the running hash state. -/
def shaCompress (hs : Sha8) (block : List Nat) : Sha8 :=
  let w := shaSchedule (bytesToWords block)
  let st := (List.range 64).foldl (shaRound w) hs
  { a := w32 (hs.a + st.a), b := w32 (hs.b + st.b), c := w32 (hs.c + st.c),
    d := w32 (hs.d + st.d), e := w32 (hs.e + st.e), f := w32 (hs.f + st.f),
    g := w32 (hs.g + st.g), h := w32 (hs.h + st.h) }

/-- The SHA-256 initial hash state (decimal). -/
def shaInit : Sha8 :=
  { a := 1779033703, b := 3144134277, c := 1013904242, d := 2773480762,
    e := 1359893119, f := 2600822924, g := 528734635, h := 1541459225 }

/-- Digest function SHA-256 of a byte list, as 32 digest bytes. -/
def sha256 (msg : List Nat) : List Nat :=
  let hs := (toBlocks (shaPad msg)).foldl shaCompress shaInit
  natToBytesBE 4 hs.a ++ natToBytesBE 4 hs.b ++ natToBytesBE 4 hs.c ++
  natToBytesBE 4 hs.d ++ natToBytesBE 4 hs.e ++ natToBytesBE 4 hs.f ++
  natToBytesBE 4 hs.g ++ natToBytesBE 4 hs.h

/-- Keyed MAC HMAC-SHA256 (`Hmac::<Sha256>::new_from_slice` / `update` /
`finalize`): block size 64 bytes, `0x36` inner pad, `0x5c` outer pad. -/
def hmacSha256 (key msg : List Nat) : List Nat :=
  let k1 := if 64 < key.length then sha256 key else key
  let k2 := k1 ++ List.replicate (64 - k1.length) 0
  let inner := sha256 (k2.map (fun b => b ^^^ 0x36) ++ msg)
  sha256 (k2.map (fun b => b ^^^ 0x5c) ++ inner)

/-- The lowercase hex alphabet used by `hex::encode`. -/
def hexDigits : List Char := "0123456789abcdef".data

/-- Lowercase hex of one byte (`hex::encode` per-byte step). -/
def hexByte (b : Nat) : List Char :=
  [hexDigits.getD ((b >>> 4) % 16) 'x', hexDigits.getD (b % 16) 'x']

/-- Model of `hex::encode`: lowercase hex of a byte list. -/
def hexEncode (bs : List Nat) : String :=
  String.mk (bs.flatMap hexByte)

/-- Byte encoding UTF-8 of a string (`str::as_bytes`). -/
def strBytes (s : String) : List Nat :=
  s.toUTF8.toList.map (fun b => b.toNat)

/-- Model of `domain/webhook.rs::sign_payload`: `format!("sha256={}",
hex::encode(mac.finalize().into_bytes()))` with the HMAC keyed by the
secret's bytes over the payload bytes. -/
def sign_payload (payload : List Nat) (secret : String) : String :=
  "sha256=" ++ hexEncode (hmacSha256 (strBytes secret) payload)

/-! ## Webhook delivery worker (src/workers/webhook_processor.rs) -/

/-- The HTTP request `deliver_webhook` builds (`client.post(..)` with its
headers and body); the send itself is external I/O. -/
structure HttpRequest where
  url : String
  contentType : String
  webhookId : Uuid
  timestamp : Int
  signature : String
  body : List Nat
deriving DecidableEq

/-- Model of `deliver_webhook` up to the `send()`: load the business (missing is a
failure), no-URL means nothing to do (`Ok` without a request), otherwise
serialize the payload, sign it, and assemble the POST.  The modelled
payload column already holds the serialized bytes, so `serde_json::to_vec`
is the identity on it. -/
def deliverWebhook (businesses : List Business) (e : WebhookOutbox)
    (now : Int) : Except String (Option HttpRequest) :=
  match businesses.find? (fun b => b.id == e.business_id) with
  | none => .error "business not found"
  | some b =>
    match b.webhook_url with
    | none => .ok none
    | some url =>
      let payload := e.payload
      let signature :=
        match b.webhook_secret with
        | some s => sign_payload payload s
        | none => ""
      .ok (some { url := url, contentType := "application/json",
                  webhookId := e.id, timestamp := now,
                  signature := signature, body := payload })

/-- Model of `mark_delivered`. -/
def markDelivered (e : WebhookOutbox) (now : Int) : WebhookOutbox :=
  { e with status := "delivered", processed_at := some now }

/-- Model of `schedule_retry` applied to the re-fetched row: `next_attempt =
attempts + 1`; at or beyond `max_attempts` the row is marked failed,
otherwise it is rescheduled with `delay_secs = 2i64.pow(next_attempt).min(3600)`
and `jitter = rand::random::<i64>() % 1000`, the stored instant being
`now + (delay_secs + jitter / 1000)` seconds (Rust `%` and `/` truncate
toward zero: `Int.tmod` / `Int.tdiv`).  `r` models the random draw. -/
def scheduleRetry (e : WebhookOutbox) (err : String) (now : Int)
    (r : Int) : WebhookOutbox :=
  let next_attempt := e.attempts + 1
  if e.max_attempts ≤ next_attempt then
    { e with status := "failed", last_error := some err }
  else
    let delay_secs : Int := min (2 ^ next_attempt.toNat) 3600
    let jitter := Int.tmod r 1000
    { e with status := "retrying", attempts := next_attempt,
             next_attempt_at := now + (delay_secs + Int.tdiv jitter 1000),
             last_error := some err }

/-! ## Authentication middleware (src/api/middleware/auth.rs)

`ApiKey::verify` runs an Argon2 KDF, which the embedding keeps abstract as
a boolean-valued parameter `verifyFn`.  The final `UPDATE api_keys SET
last_used_at = ..` can fail at the database; `updateOk` models whether it
succeeds, and the source's `?` on that statement propagates its failure. -/

/-- Model of `ApiKey::is_valid`: not revoked and not expired. -/
def apiKeyIsValid (k : ApiKey) (now : Int) : Bool :=
  if k.revoked_at.isSome then false
  else
    match k.expires_at with
    | some e => if e < now then false else true
    | none => true

/-- Model of `auth::middleware` up to installing the `AuthContext`: header
extraction, `Bearer ` stripping (`strip_prefix`), length check, prefix
lookup (revoked rows excluded by the query), validity and KDF
verification, then the `last_used_at` update.  The header is carried as
its character list so that the byte-level slicing of the source
(`&key[..12]`, `key.len()`) is modelled computably; the stored
`key_prefix` column is compared through its characters. -/
def authMiddleware (keys : List ApiKey) (authHeader : Option (List Char))
    (verifyFn : ApiKey → List Char → Bool) (now : Int) (updateOk : Bool) :
    Except AppError ApiKey :=
  match authHeader with
  | none => .error .InvalidApiKey
  | some header =>
    if "Bearer ".data.isPrefixOf header then
      let key := header.drop "Bearer ".data.length
      if key.length < 12 then .error .InvalidApiKey
      else
        let pfx := key.take 12
        match keys.find? (fun k => k.key_pfx.data == pfx && k.revoked_at == none) with
        | none => .error .InvalidApiKey
        | some apiKey =>
          if !apiKeyIsValid apiKey now || !verifyFn apiKey key then
            .error .InvalidApiKey
          else if updateOk then .ok apiKey
          else .error (.Database "update failed")
    else .error .InvalidApiKey

/-! ## Concrete fixtures for witnesses and counterexamples -/

def uuidA : Uuid := List.replicate 15 0 ++ [1]

def uuidB : Uuid := List.replicate 15 0 ++ [2]

def uuidBiz : Uuid := List.replicate 15 0 ++ [9]

def ids0 : FreshIds :=
  { txn_id := [16, 1], le1_id := [16, 2], le2_id := [16, 3], ob1_id := [16, 4],
    ob2_id := [16, 5], payload1 := [10], payload2 := [11] }

def accA : Account :=
  { id := uuidA, business_id := uuidBiz, account_type := "checking",
    currency := "USD", balance := 100, available_balance := 100,
    version := 1, created_at := 0, updated_at := 0 }

def accB : Account :=
  { id := uuidB, business_id := uuidBiz, account_type := "checking",
    currency := "USD", balance := 0, available_balance := 0,
    version := 1, created_at := 0, updated_at := 0 }

def dbA : Db :=
  { accounts := [accA, accB], transactions := [], ledger_entries := [], outbox := [] }

/-- A transfer request whose source and destination are the same account. -/
def reqSelf : CreateTransactionRequest :=
  { tx_type := .Transfer, source_account_id := some uuidA,
    destination_account_id := some uuidA, amount := 50, currency := "USD",
    description := none, metadata := none }

/-- A credit of 25 USD into account `uuidA`. -/
def reqC : CreateTransactionRequest :=
  { tx_type := .Credit, source_account_id := none,
    destination_account_id := some uuidA, amount := 25, currency := "USD",
    description := none, metadata := none }

/-- A credit request with a non-positive amount. -/
def reqZero : CreateTransactionRequest :=
  { tx_type := .Credit, source_account_id := none,
    destination_account_id := some uuidA, amount := 0, currency := "USD",
    description := none, metadata := none }

/-- A debit of exactly the available balance of `accA`. -/
def reqD100 : CreateTransactionRequest :=
  { tx_type := .Debit, source_account_id := some uuidA,
    destination_account_id := none, amount := 100, currency := "USD",
    description := none, metadata := none }

/-- A transaction already stored under idempotency key `"k1"`. -/
def txn0 : Transaction :=
  { id := [16, 9], idempotency_key := some "k1", tx_type := .Credit,
    status := .Completed, source_account_id := none,
    destination_account_id := some uuidA, amount := 5, currency := "USD",
    description := none, metadata := none, created_at := 1, completed_at := some 1 }

def dbT : Db := { dbA with transactions := [txn0] }

/-- The transaction `applyTx dbA reqC (some "k1") ids0 9` creates. -/
def freshT : Transaction :=
  { id := ids0.txn_id, idempotency_key := some "k1", tx_type := .Credit,
    status := .Completed, source_account_id := none,
    destination_account_id := some uuidA, amount := 25, currency := "USD",
    description := none, metadata := none, created_at := 9, completed_at := some 9 }

/-- The ledger entry that credit writes. -/
def freshLe : LedgerEntry :=
  { id := ids0.le1_id, transaction_id := ids0.txn_id, account_id := uuidA,
    entry_type := "credit", amount := 25, balance_after := 125, created_at := 9 }

/-- The database state after that credit. -/
def freshDb : Db :=
  { accounts := updateAccountBalance dbA.accounts uuidA 125 9,
    transactions := [freshT],
    ledger_entries := [freshLe],
    outbox := [enqueueWebhook ids0.ob1_id uuidBiz "transaction.completed"
      ids0.payload1 9] }

/-- An outbox row with four recorded attempts out of five. -/
def ev4 : WebhookOutbox :=
  { id := [16, 7], business_id := uuidBiz, event_type := "transaction.completed",
    payload := [10], status := "retrying", attempts := 4, max_attempts := 5,
    next_attempt_at := 0, last_error := some "x", created_at := 0,
    processed_at := none }

/-- A pending outbox row with no attempts yet. -/
def ev0 : WebhookOutbox :=
  { id := [16, 8], business_id := uuidBiz, event_type := "transaction.completed",
    payload := [10], status := "pending", attempts := 0, max_attempts := 5,
    next_attempt_at := 0, last_error := none, created_at := 0,
    processed_at := none }

/-- A live (not revoked, not expiring) API key with prefix `payx_abcdef0`. -/
def apiKey0 : ApiKey :=
  { id := [16, 6], business_id := uuidBiz, key_hash := "argon2-hash",
    key_pfx := "payx_abcdef0", name := none, rate_limit_per_minute := 100,
    created_at := 0, expires_at := none, revoked_at := none, last_used_at := none }

/-- A business with a webhook URL and secret configured. -/
def biz0 : Business :=
  { id := uuidBiz, name := "b", email := "b@example.com",
    webhook_url := some "https://example.com/hook", webhook_secret := some "k" }

/-- An outbox row addressed to `biz0`. -/
def ev8 : WebhookOutbox :=
  { id := [16, 10], business_id := uuidBiz, event_type := "transaction.completed",
    payload := [104, 105], status := "pending", attempts := 0, max_attempts := 5,
    next_attempt_at := 0, last_error := none, created_at := 0,
    processed_at := none }

/-- The request `deliverWebhook [biz0] ev8 3` assembles. -/
def req0 : HttpRequest :=
  { url := "https://example.com/hook", contentType := "application/json",
    webhookId := ev8.id, timestamp := 3,
    signature := sign_payload [104, 105] "k", body := [104, 105] }

/-! ## Claim theorems -/

/-- Claim C10: for every create-transaction request with `amount <= 0`,
`create` returns `validation_error` before doing any other work and no
state is changed (the error return carries no new database state); the
check precedes the idempotency pre-check, so this holds even when the
request carries an idempotency key matching an existing Transaction. -/
theorem create_rejects_nonpositive_amount (db : Db) (key : Option String)
    (req : CreateTransactionRequest) (ids : FreshIds) (now : Int)
    (h : req.amount ≤ 0) :
    create db key req ids now = .error (.Validation "amount must be positive") := by
  unfold create
  rw [if_pos h]

/-- Witness for `create_rejects_nonpositive_amount`: a zero-amount request
whose idempotency key matches the stored `txn0` is still rejected. -/
theorem create_rejects_nonpositive_amount_witness :
    reqZero.amount ≤ 0
    ∧ findByIdempotencyKey dbT "k1" = some txn0
    ∧ create dbT (some "k1") reqZero ids0 9
        = .error (.Validation "amount must be positive") :=
  ⟨by decide, rfl,
    create_rejects_nonpositive_amount dbT (some "k1") reqZero ids0 9 (by decide)⟩

/-- Claim C3: a create-transaction request whose idempotency key matches an
existing Transaction returns HTTP 200 with that existing Transaction
(hence its `id`) and the database unchanged (no balance moves); a fresh
creation (no key hit) that succeeds returns HTTP 201. -/
theorem create_idempotent_replay (db db1 : Db) (k : String)
    (req : CreateTransactionRequest) (ids : FreshIds) (now : Int)
    (t0 t1 : Transaction) (db2 : Db)
    (hk : findByIdempotencyKey db k = some t0)
    (ha : 0 < req.amount)
    (hn : findByIdempotencyKey db1 k = none)
    (happ : applyTx db1 req (some k) ids now = .ok (t1, db2)) :
    create db (some k) req ids now = .ok (200, t0, db)
    ∧ create db1 (some k) req ids now = .ok (201, t1, db2) := by
  constructor
  · unfold create
    rw [if_neg (not_le.mpr ha), Option.some_bind, hk]
  · unfold create
    rw [if_neg (not_le.mpr ha), Option.some_bind, hn, happ]

/-- Witness for `create_idempotent_replay`: replaying key `"k1"` against
`dbT` returns 200 with the stored `txn0` and leaves `dbT` unchanged; the
same request against `dbA` (no stored key) creates `freshT` with 201. -/
theorem create_idempotent_replay_witness :
    (0 : Decimal) < reqC.amount
    ∧ create dbT (some "k1") reqC ids0 9 = .ok (200, txn0, dbT)
    ∧ create dbA (some "k1") reqC ids0 9 = .ok (201, freshT, freshDb) :=
  ⟨by decide,
    create_idempotent_replay dbT dbA "k1" reqC ids0 9 txn0 freshT freshDb
      rfl (by decide) rfl rfl⟩

/-- Claim C4: every Transaction a successful `apply` (credit, debit or
transfer dispatch) produces has status `completed` with `completed_at`
equal to `created_at`; it is never `pending` or `failed`.  The stored row
is the returned one. -/
theorem applyTx_produces_completed (db : Db) (req : CreateTransactionRequest)
    (key : Option String) (ids : FreshIds) (now : Int)
    (t : Transaction) (db2 : Db)
    (h : applyTx db req key ids now = .ok (t, db2)) :
    t.status = .Completed ∧ t.completed_at = some t.created_at
    ∧ t.status ≠ .Pending ∧ t.status ≠ .Failed
    ∧ db2.transactions = db.transactions ++ [t] := by
  unfold applyTx at h
  cases htt : req.tx_type with
  | Credit =>
    simp only [htt] at h
    unfold executeCredit at h
    repeat' split at h
    all_goals first
      | exact Except.noConfusion h
      | · simp only [Except.ok.injEq, Prod.mk.injEq] at h
          obtain ⟨h1, h2⟩ := h
          subst h1
          subst h2
          exact ⟨rfl, rfl, nofun, nofun, rfl⟩
  | Debit =>
    simp only [htt] at h
    unfold executeDebit at h
    repeat' split at h
    all_goals first
      | exact Except.noConfusion h
      | · simp only [Except.ok.injEq, Prod.mk.injEq] at h
          obtain ⟨h1, h2⟩ := h
          subst h1
          subst h2
          exact ⟨rfl, rfl, nofun, nofun, rfl⟩
  | Transfer =>
    simp only [htt] at h
    unfold executeTransfer at h
    cases hs : req.source_account_id with
    | none =>
      simp only [hs] at h
      all_goals exact Except.noConfusion h
    | some source_id =>
      simp only [hs] at h
      cases hd : req.destination_account_id with
      | none =>
        simp only [hd] at h
        all_goals exact Except.noConfusion h
      | some dest_id =>
        simp only [hd] at h
        cases hf : findAccount db.accounts (lockPair source_id dest_id).1 with
        | none =>
          simp only [hf] at h
          all_goals exact Except.noConfusion h
        | some first =>
          simp only [hf] at h
          cases hg : findAccount db.accounts (lockPair source_id dest_id).2 with
          | none =>
            simp only [hg] at h
            all_goals exact Except.noConfusion h
          | some second =>
            simp only [hg] at h
            repeat' split at h
            all_goals first
              | exact Except.noConfusion h
              | · simp only [Except.ok.injEq, Prod.mk.injEq] at h
                  obtain ⟨h1, h2⟩ := h
                  subst h1
                  subst h2
                  exact ⟨rfl, rfl, nofun, nofun, rfl⟩

/-- Witness for `applyTx_produces_completed`: the concrete credit
`applyTx dbA reqC` succeeds and its fields satisfy the invariant. -/
theorem applyTx_produces_completed_witness :
    freshT.status = .Completed ∧ freshT.completed_at = some freshT.created_at
    ∧ freshT.status ≠ .Pending ∧ freshT.status ≠ .Failed
    ∧ freshDb.transactions = dbA.transactions ++ [freshT] :=
  applyTx_produces_completed dbA reqC (some "k1") ids0 9 freshT freshDb rfl

/-- Reading back the updated row: `UPDATE .. WHERE id = $1` followed by
`SELECT .. WHERE id = $1` returns the rewritten row. -/
theorem findAccount_updateAccountBalance (accounts : List Account) (i : Uuid)
    (newBal : Decimal) (now : Int) :
    findAccount (updateAccountBalance accounts i newBal now) i
      = (findAccount accounts i).map
          (fun a => { a with balance := newBal, available_balance := newBal,
                             version := a.version + 1, updated_at := now }) := by
  induction accounts with
  | nil => rfl
  | cons a as ih =>
    by_cases hid : (a.id == i) = true
    · simp only [findAccount, updateAccountBalance, List.map_cons] at *
      rw [if_pos hid]
      simp only [List.find?_cons, hid]
      rfl
    · simp only [findAccount, updateAccountBalance, List.map_cons] at *
      rw [if_neg hid]
      simp only [List.find?_cons, Bool.of_not_eq_true hid]
      exact ih

/-- Claim C5: a debit against an existing account of matching currency with
positive amount fails with `insufficient_funds` (HTTP 422, code
`insufficient_funds`, details carrying the available and requested
amounts) exactly when `available_balance < amount`; a debit of exactly
the available balance succeeds and leaves the balance at 0. -/
theorem debit_insufficient_funds_iff (db : Db) (req : CreateTransactionRequest)
    (key : Option String) (ids : FreshIds) (now : Int)
    (source_id : Uuid) (acc : Account)
    (hsrc : req.source_account_id = some source_id)
    (hfind : findAccount db.accounts source_id = some acc)
    (hcur : acc.currency = req.currency)
    (ha : 0 < req.amount) :
    (executeDebit db req key ids now
        = .error (.InsufficientFunds source_id acc.available_balance req.amount)
      ↔ acc.available_balance < req.amount)
    ∧ errorHttpStatus (.InsufficientFunds source_id acc.available_balance req.amount) = 422
    ∧ errorCode (.InsufficientFunds source_id acc.available_balance req.amount)
        = "insufficient_funds"
    ∧ errorDetails (.InsufficientFunds source_id acc.available_balance req.amount)
        = some (acc.available_balance, req.amount)
    ∧ (req.amount = acc.available_balance → acc.balance = acc.available_balance →
        ∃ t db2, executeDebit db req key ids now = .ok (t, db2)
          ∧ ∃ a2, findAccount db2.accounts source_id = some a2
              ∧ a2.balance = 0 ∧ a2.available_balance = 0) := by
  unfold executeDebit
  simp only [hsrc, hfind]
  rw [if_neg (fun hne => hne hcur)]
  refine ⟨?_, rfl, rfl, rfl, ?_⟩
  · by_cases hlt : acc.available_balance < req.amount
    · rw [if_pos hlt]
      exact ⟨fun _ => hlt, fun _ => rfl⟩
    · rw [if_neg hlt]
      exact ⟨fun hcontra => Except.noConfusion hcontra, fun hlt2 => absurd hlt2 hlt⟩
  · intro heq hbal
    have hlt : ¬acc.available_balance < req.amount := by
      rw [heq]
      exact lt_irrefl _
    rw [if_neg hlt]
    refine ⟨_, _, rfl, ?_⟩
    rw [findAccount_updateAccountBalance, hfind]
    refine ⟨_, rfl, ?_, ?_⟩
    · show acc.balance - req.amount = 0
      rw [hbal, heq]
      exact sub_self _
    · show acc.balance - req.amount = 0
      rw [hbal, heq]
      exact sub_self _

/-- Witness for `debit_insufficient_funds_iff`: debiting exactly the
100-unit available balance of `accA`. -/
theorem debit_insufficient_funds_iff_witness :
    (executeDebit dbA reqD100 none ids0 9
        = .error (.InsufficientFunds uuidA accA.available_balance reqD100.amount)
      ↔ accA.available_balance < reqD100.amount)
    ∧ errorHttpStatus (.InsufficientFunds uuidA accA.available_balance reqD100.amount) = 422
    ∧ errorCode (.InsufficientFunds uuidA accA.available_balance reqD100.amount)
        = "insufficient_funds"
    ∧ errorDetails (.InsufficientFunds uuidA accA.available_balance reqD100.amount)
        = some (accA.available_balance, reqD100.amount)
    ∧ (reqD100.amount = accA.available_balance → accA.balance = accA.available_balance →
        ∃ t db2, executeDebit dbA reqD100 none ids0 9 = .ok (t, db2)
          ∧ ∃ a2, findAccount db2.accounts uuidA = some a2
              ∧ a2.balance = 0 ∧ a2.available_balance = 0) :=
  debit_insufficient_funds_iff dbA reqD100 none ids0 9 uuidA accA rfl rfl rfl (by decide)

/-- Claim C1 (refuted — code bug): `execute_transfer` has no
`source == destination` check, so a self-transfer is not rejected with
`validation_error`.  Evaluating the code on a self-transfer of 50 against
`accA` (balance 100): the request is accepted (HTTP 201), the second
balance `UPDATE` overwrites the first so the account ends at balance 150
(money is created), `version` is bumped twice, and a Transaction, two
LedgerEntries and an outbox row are all written. -/
theorem self_transfer_accepted_and_inflates_balance :
    (create dbA none reqSelf ids0 7).toOption.map
        (fun x => (x.1,
          (findAccount x.2.2.accounts uuidA).map
            (fun a => (a.balance, a.available_balance, a.version)),
          x.2.2.transactions.length, x.2.2.ledger_entries.length,
          x.2.2.outbox.length))
      = some (201, some (150, 150, 3), 1, 2, 1) := by rfl

/-- Claim C2 counterexample: a failing delivery attempt on `ev4`
(`attempts = 4`, `max_attempts = 5`) moves the row to `failed`, but its
stored `attempts` is left at 4 — not incremented and not equal to
`max_attempts`. -/
theorem schedule_retry_failed_counterexample :
    (scheduleRetry ev4 "connection refused" 0 0).status = "failed"
    ∧ (scheduleRetry ev4 "connection refused" 0 0).attempts = ev4.attempts
    ∧ (scheduleRetry ev4 "connection refused" 0 0).attempts ≠ ev4.max_attempts := by
  refine ⟨rfl, rfl, ?_⟩
  decide

/-- Claim C2 (amended): `schedule_retry` moves a row to `failed` exactly
when the incremented attempt count reaches `max_attempts`, but the failed
branch does not store the increment: the row keeps its prior `attempts`
value (`max_attempts - 1` for a row that arrives there by the retry
path); `attempts` is incremented only on the rescheduling branch. -/
theorem schedule_retry_failed_keeps_attempts (e : WebhookOutbox) (err : String)
    (now r : Int) :
    ((scheduleRetry e err now r).status = "failed" ↔ e.max_attempts ≤ e.attempts + 1)
    ∧ (e.max_attempts ≤ e.attempts + 1 →
        (scheduleRetry e err now r).attempts = e.attempts
        ∧ (scheduleRetry e err now r).last_error = some err)
    ∧ (e.attempts + 1 < e.max_attempts →
        (scheduleRetry e err now r).attempts = e.attempts + 1) := by
  simp only [scheduleRetry]
  by_cases hc : e.max_attempts ≤ e.attempts + 1
  · rw [if_pos hc]
    exact ⟨⟨fun _ => hc, fun _ => rfl⟩, fun _ => ⟨rfl, rfl⟩,
      fun hlt => absurd hc (not_le.mpr hlt)⟩
  · rw [if_neg hc]
    exact ⟨⟨fun hst => absurd (show ("retrying" : String) = "failed" from hst) (by decide),
      fun hle => absurd hle hc⟩, fun hle => absurd hle hc, fun _ => rfl⟩

/-- Witness for `schedule_retry_failed_keeps_attempts` at the concrete
row `ev4`. -/
theorem schedule_retry_failed_keeps_attempts_witness :
    ev4.max_attempts ≤ ev4.attempts + 1
    ∧ (((scheduleRetry ev4 "boom" 0 0).status = "failed"
          ↔ ev4.max_attempts ≤ ev4.attempts + 1)
      ∧ (ev4.max_attempts ≤ ev4.attempts + 1 →
          (scheduleRetry ev4 "boom" 0 0).attempts = ev4.attempts
          ∧ (scheduleRetry ev4 "boom" 0 0).last_error = some "boom")
      ∧ (ev4.attempts + 1 < ev4.max_attempts →
          (scheduleRetry ev4 "boom" 0 0).attempts = ev4.attempts + 1)) :=
  ⟨by decide, schedule_retry_failed_keeps_attempts ev4 "boom" 0 0⟩

/-- Rust `(r % 1000) / 1000` (truncating `%` and `/`) is always 0: the
jitter term contributes nothing to the delay. -/
theorem tmod_thousand_tdiv_thousand (r : Int) : (Int.tmod r 1000).tdiv 1000 = 0 := by
  cases r with
  | ofNat m =>
    show (Int.ofNat (m % 1000)).tdiv 1000 = 0
    exact Int.tdiv_eq_zero_of_lt (Int.ofNat_le.mpr (Nat.zero_le _))
      (Int.ofNat_lt.mpr (Nat.mod_lt m (by norm_num)))
  | negSucc m =>
    show (-(Int.ofNat ((m + 1) % 1000))).tdiv 1000 = 0
    rw [Int.neg_tdiv]
    have hz : (Int.ofNat ((m + 1) % 1000)).tdiv 1000 = 0 :=
      Int.tdiv_eq_zero_of_lt (Int.ofNat_le.mpr (Nat.zero_le _))
        (Int.ofNat_lt.mpr (Nat.mod_lt (m + 1) (by norm_num)))
    rw [hz]
    rfl

/-- Claim C9: a failing attempt that is rescheduled (new attempt count
`n = attempts + 1` still below `max_attempts`) gets `status = retrying`
and a delay before `next_attempt_at` of exactly `min(2^n, 3600)` seconds:
the jitter term `(r % 1000) / 1000` is integer division and contributes
0, so the delay lies in `[min(2^n, 3600), min(2^n, 3600) + 1]` — the
claimed `[2^n, 2^n + 1]` capped at 3600. -/
theorem backoff_delay_bounds (e : WebhookOutbox) (err : String) (now r : Int)
    (h1 : e.attempts + 1 < e.max_attempts) :
    (scheduleRetry e err now r).status = "retrying"
    ∧ (scheduleRetry e err now r).next_attempt_at - now
        = min ((2 : Int) ^ (e.attempts + 1).toNat) 3600
    ∧ min ((2 : Int) ^ (e.attempts + 1).toNat) 3600
        ≤ (scheduleRetry e err now r).next_attempt_at - now
    ∧ (scheduleRetry e err now r).next_attempt_at - now
        ≤ min ((2 : Int) ^ (e.attempts + 1).toNat) 3600 + 1 := by
  simp only [scheduleRetry]
  rw [if_neg (not_le.mpr h1)]
  have he : now + (min ((2 : Int) ^ (e.attempts + 1).toNat) 3600
      + (Int.tmod r 1000).tdiv 1000) - now
      = min ((2 : Int) ^ (e.attempts + 1).toNat) 3600 := by
    rw [tmod_thousand_tdiv_thousand]
    ring
  exact ⟨rfl, he, le_of_eq he.symm, by rw [he]; exact le_of_lt (lt_add_one _)⟩

/-- Witness for `backoff_delay_bounds` at `ev0` (first failure, new
attempt count 1): the delay is exactly `min(2^1, 3600) = 2` seconds. -/
theorem backoff_delay_bounds_witness :
    ev0.attempts + 1 < ev0.max_attempts
    ∧ ((scheduleRetry ev0 "t" 5 123456789).status = "retrying"
      ∧ (scheduleRetry ev0 "t" 5 123456789).next_attempt_at - 5
          = min ((2 : Int) ^ (ev0.attempts + 1).toNat) 3600
      ∧ min ((2 : Int) ^ (ev0.attempts + 1).toNat) 3600
          ≤ (scheduleRetry ev0 "t" 5 123456789).next_attempt_at - 5
      ∧ (scheduleRetry ev0 "t" 5 123456789).next_attempt_at - 5
          ≤ min ((2 : Int) ^ (ev0.attempts + 1).toNat) 3600 + 1) :=
  ⟨by decide, backoff_delay_bounds ev0 "t" 5 123456789 (by decide)⟩

/-- Claim C6 (amended): the `last_used_at` update is not best-effort.  For
every request that passes all credential checks (it succeeds when the
update succeeds), a failure of the `last_used_at` update causes the
request to be rejected: the `?` on that `UPDATE` propagates a database
error, mapped to `database_error` / HTTP 500. -/
theorem auth_update_failure_rejects (keys : List ApiKey)
    (authHeader : Option (List Char)) (verifyFn : ApiKey → List Char → Bool)
    (now : Int) (k : ApiKey)
    (h : authMiddleware keys authHeader verifyFn now true = .ok k) :
    authMiddleware keys authHeader verifyFn now false
        = .error (.Database "update failed")
    ∧ errorHttpStatus (.Database "update failed") = 500
    ∧ errorCode (.Database "update failed") = "database_error" := by
  refine ⟨?_, rfl, rfl⟩
  unfold authMiddleware at h ⊢
  cases hh : authHeader with
  | none =>
    rw [hh] at h
    exact Except.noConfusion h
  | some header =>
    simp only [hh] at h ⊢
    by_cases hsw : ("Bearer ".data.isPrefixOf header) = true
    · rw [if_pos hsw] at h ⊢
      by_cases hlen : (header.drop "Bearer ".data.length).length < 12
      · rw [if_pos hlen] at h
        exact Except.noConfusion h
      · rw [if_neg hlen] at h ⊢
        cases hfind : List.find?
            (fun k2 => k2.key_pfx.data == (header.drop "Bearer ".data.length).take 12
              && k2.revoked_at == none) keys with
        | none =>
          simp only [hfind] at h
          exact Except.noConfusion h
        | some apiKey =>
          simp only [hfind] at h ⊢
          by_cases hv : (!apiKeyIsValid apiKey now
              || !verifyFn apiKey (header.drop "Bearer ".data.length)) = true
          · rw [if_pos hv] at h
            exact Except.noConfusion h
          · rw [if_neg hv] at h ⊢
            exact if_neg (fun hcon => Bool.noConfusion hcon)
    · rw [if_neg hsw] at h
      exact Except.noConfusion h

/-- Witness for `auth_update_failure_rejects`: the concrete key
`apiKey0`, matched by the bearer token, is rejected when the update
fails. -/
theorem auth_update_failure_rejects_witness :
    authMiddleware [apiKey0] (some "Bearer payx_abcdef0123".data)
        (fun _ _ => true) 0 false
        = .error (.Database "update failed")
    ∧ errorHttpStatus (.Database "update failed") = 500
    ∧ errorCode (.Database "update failed") = "database_error" :=
  auth_update_failure_rejects [apiKey0] (some "Bearer payx_abcdef0123".data)
    (fun _ _ => true) 0 apiKey0 rfl

/-- Claim C6 counterexample: the same concrete request succeeds when the
`last_used_at` update succeeds and is rejected when it fails — the
failure of the update does cause the request to be rejected, refuting the
best-effort claim. -/
theorem auth_best_effort_counterexample :
    authMiddleware [apiKey0] (some "Bearer payx_abcdef0123".data)
      (fun _ _ => true) 0 true = .ok apiKey0
    ∧ authMiddleware [apiKey0] (some "Bearer payx_abcdef0123".data)
      (fun _ _ => true) 0 false = .error (.Database "update failed") := ⟨rfl, rfl⟩

/-- Model of `bytesLt` is asymmetric. -/
theorem bytesLt_asymm (a : List Nat) : ∀ b : List Nat,
    bytesLt a b = true → bytesLt b a = false := by
  induction a with
  | nil =>
    intro b h
    cases b with
    | nil => simp [bytesLt] at h
    | cons y ys => simp [bytesLt]
  | cons x xs ih =>
    intro b h
    cases b with
    | nil => simp [bytesLt] at h
    | cons y ys =>
      simp only [bytesLt] at h ⊢
      by_cases h1 : x < y
      · rw [if_neg (by omega), if_pos h1]
      · rw [if_neg h1] at h
        by_cases h2 : y < x
        · rw [if_pos h2] at h
          exact absurd h (by simp)
        · rw [if_neg h2] at h
          rw [if_neg h2, if_neg h1]
          exact ih ys h

/-- Byte lists of equal length are totally ordered by `bytesLt`. -/
theorem bytesLt_total (a : List Nat) : ∀ b : List Nat, a.length = b.length →
    a ≠ b → bytesLt a b = true ∨ bytesLt b a = true := by
  induction a with
  | nil =>
    intro b hlen hne
    cases b with
    | nil => exact absurd rfl hne
    | cons y ys => simp at hlen
  | cons x xs ih =>
    intro b hlen hne
    cases b with
    | nil => simp at hlen
    | cons y ys =>
      by_cases h1 : x < y
      · left
        simp only [bytesLt]
        rw [if_pos h1]
      · by_cases h2 : y < x
        · right
          simp only [bytesLt]
          rw [if_pos h2]
        · have hxy : x = y := by omega
          subst hxy
          have hlen2 : xs.length = ys.length := by simpa using hlen
          have hne2 : xs ≠ ys := fun hEq => hne (by rw [hEq])
          rcases ih ys hlen2 hne2 with h | h
          · left
            simp only [bytesLt]
            rw [if_neg (lt_irrefl x), if_neg (lt_irrefl x)]
            exact h
          · right
            simp only [bytesLt]
            rw [if_neg (lt_irrefl x), if_neg (lt_irrefl x)]
            exact h

/-- A list of bytes denotes a value below `256 ^ length`. -/
theorem toNatBE_lt (l : List Nat) (h : ∀ x ∈ l, x < 256) :
    toNatBE l < 256 ^ l.length := by
  induction l with
  | nil => simp [toNatBE]
  | cons b bs ih =>
    have hb : b < 256 := h b (List.mem_cons_self b bs)
    have ht : toNatBE bs < 256 ^ bs.length :=
      ih (fun x hx => h x (List.mem_cons_of_mem b hx))
    simp only [toNatBE, List.length_cons]
    calc b * 256 ^ bs.length + toNatBE bs
        < b * 256 ^ bs.length + 256 ^ bs.length := by omega
      _ = (b + 1) * 256 ^ bs.length := by ring
      _ ≤ 256 * 256 ^ bs.length := Nat.mul_le_mul_right _ (by omega)
      _ = 256 ^ (bs.length + 1) := by ring

/-- On equal-length byte lists, `bytesLt` (the byte-wise unsigned
lexicographic order, i.e. the derived `Ord` on `[u8; 16]`) coincides with
the numeric order of the big-endian values. -/
theorem bytesLt_iff_toNatBE (a : List Nat) : ∀ b : List Nat, a.length = b.length →
    (∀ x ∈ a, x < 256) → (∀ x ∈ b, x < 256) →
    (bytesLt a b = true ↔ toNatBE a < toNatBE b) := by
  induction a with
  | nil =>
    intro b hlen ha hb
    cases b with
    | nil => simp [bytesLt, toNatBE]
    | cons y ys => simp at hlen
  | cons x xs ih =>
    intro b hlen ha hb
    cases b with
    | nil => simp at hlen
    | cons y ys =>
      have hlen2 : xs.length = ys.length := by simpa using hlen
      have hxs : ∀ z ∈ xs, z < 256 := fun z hz => ha z (List.mem_cons_of_mem x hz)
      have hys : ∀ z ∈ ys, z < 256 := fun z hz => hb z (List.mem_cons_of_mem y hz)
      have htx : toNatBE xs < 256 ^ ys.length := by
        rw [← hlen2]
        exact toNatBE_lt xs hxs
      have hty : toNatBE ys < 256 ^ ys.length := toNatBE_lt ys hys
      simp only [bytesLt, toNatBE, hlen2]
      by_cases h1 : x < y
      · rw [if_pos h1]
        constructor
        · intro _
          calc x * 256 ^ ys.length + toNatBE xs
              < x * 256 ^ ys.length + 256 ^ ys.length := by omega
            _ = (x + 1) * 256 ^ ys.length := by ring
            _ ≤ y * 256 ^ ys.length := Nat.mul_le_mul_right _ (by omega)
            _ ≤ y * 256 ^ ys.length + toNatBE ys := Nat.le_add_right _ _
        · intro _
          rfl
      · rw [if_neg h1]
        by_cases h2 : y < x
        · rw [if_pos h2]
          have hgt : y * 256 ^ ys.length + toNatBE ys
              < x * 256 ^ ys.length + toNatBE xs := by
            calc y * 256 ^ ys.length + toNatBE ys
                < y * 256 ^ ys.length + 256 ^ ys.length := by omega
              _ = (y + 1) * 256 ^ ys.length := by ring
              _ ≤ x * 256 ^ ys.length := Nat.mul_le_mul_right _ (by omega)
              _ ≤ x * 256 ^ ys.length + toNatBE xs := Nat.le_add_right _ _
          constructor
          · intro hcon
            exact absurd hcon (by simp)
          · intro harith
            exact absurd (lt_trans harith hgt) (lt_irrefl _)
        · have hxy : x = y := by omega
          subst hxy
          rw [if_neg (lt_irrefl x)]
          rw [ih ys hlen2 hxs hys]
          constructor
          · intro hlt
            omega
          · intro hlt
            omega

/-- Claim C7: for a transfer between distinct accounts, `lockPair` — the
translation of `if source_id < dest_id {(source_id, dest_id)} else
{(dest_id, source_id)}`, with `<` the derived byte-wise `Ord` on
`uuid::Uuid` — locks first the account whose 16-byte identifier is
lesser under unsigned lexicographic byte-wise comparison (equivalently,
whose 128-bit big-endian value is smaller), independent of which account
is the source and which the destination.  `executeTransfer` issues its
two `SELECT .. FOR UPDATE` queries in exactly this pair order. -/
theorem transfer_lock_order (s d : Uuid) (hs : s.length = 16) (hd : d.length = 16)
    (hsb : ∀ x ∈ s, x < 256) (hdb : ∀ x ∈ d, x < 256) (hne : s ≠ d) :
    bytesLt (lockPair s d).1 (lockPair s d).2 = true
    ∧ toNatBE (lockPair s d).1 < toNatBE (lockPair s d).2
    ∧ lockPair d s = lockPair s d := by
  have hlen : s.length = d.length := by rw [hs, hd]
  rcases bytesLt_total s d hlen hne with h | h
  · have hba : bytesLt d s = false := bytesLt_asymm s d h
    unfold lockPair
    rw [if_pos h, if_neg (by simp [hba])]
    exact ⟨h, (bytesLt_iff_toNatBE s d hlen hsb hdb).mp h, rfl⟩
  · have hba : bytesLt s d = false := bytesLt_asymm d s h
    unfold lockPair
    rw [if_neg (by simp [hba]), if_pos h]
    exact ⟨h, (bytesLt_iff_toNatBE d s hlen.symm hdb hsb).mp h, rfl⟩

/-- Witness for `transfer_lock_order`: with source `uuidB` and
destination `uuidA` (`uuidA < uuidB` byte-wise), `uuidA` is locked first
and the pair is the same as for the reversed roles. -/
theorem transfer_lock_order_witness :
    uuidB ≠ uuidA
    ∧ (bytesLt (lockPair uuidB uuidA).1 (lockPair uuidB uuidA).2 = true
      ∧ toNatBE (lockPair uuidB uuidA).1 < toNatBE (lockPair uuidB uuidA).2
      ∧ lockPair uuidA uuidB = lockPair uuidB uuidA) :=
  ⟨by decide, transfer_lock_order uuidB uuidA (by decide) (by decide)
    (by decide) (by decide) (by decide)⟩

/-- An in-range `getD` lookup returns a list member. -/
theorem getD_mem_of_lt (l : List Char) (n : Nat) (d : Char) (h : n < l.length) :
    l.getD n d ∈ l := by
  rw [List.getD_eq_getElem?_getD, List.getElem?_eq_getElem h, Option.getD_some]
  exact List.getElem_mem h

/-- Every character `hexEncode` emits is one of the sixteen lowercase hex
digits. -/
theorem hexEncode_chars (bs : List Nat) :
    ∀ c ∈ (hexEncode bs).toList, c ∈ hexDigits := by
  intro c hc
  have hc2 : c ∈ bs.flatMap hexByte := by
    simpa [hexEncode, String.toList] using hc
  rcases List.mem_flatMap.mp hc2 with ⟨b, _, hcb⟩
  have h16a : (b >>> 4) % 16 < 16 := Nat.mod_lt _ (by norm_num)
  have h16b : b % 16 < 16 := Nat.mod_lt _ (by norm_num)
  simp only [hexByte, List.mem_cons, List.not_mem_nil, or_false] at hcb
  rcases hcb with hcb | hcb
  · rw [hcb]
    exact getD_mem_of_lt hexDigits _ _ h16a
  · rw [hcb]
    exact getD_mem_of_lt hexDigits _ _ h16b

/-- Claim C8: every delivery request `deliver_webhook` assembles for a
business with a configured webhook secret carries an
`X-Webhook-Signature` equal to `"sha256="` followed by the lowercase hex
of HMAC-SHA256 keyed by the secret over exactly the bytes transmitted as
the HTTP body, and that body is the serialized outbox payload. -/
theorem webhook_signature_over_body (businesses : List Business)
    (e : WebhookOutbox) (now : Int) (b : Business) (s : String) (req : HttpRequest)
    (hb : businesses.find? (fun b2 => b2.id == e.business_id) = some b)
    (hs : b.webhook_secret = some s)
    (hr : deliverWebhook businesses e now = .ok (some req)) :
    req.signature = "sha256=" ++ hexEncode (hmacSha256 (strBytes s) req.body)
    ∧ req.body = e.payload
    ∧ req.signature = sign_payload e.payload s
    ∧ ∀ c ∈ (hexEncode (hmacSha256 (strBytes s) req.body)).toList, c ∈ hexDigits := by
  unfold deliverWebhook at hr
  simp only [hb] at hr
  cases hu : b.webhook_url with
  | none =>
    simp only [hu] at hr
    exact absurd hr (by simp)
  | some url =>
    simp only [hu, hs, Except.ok.injEq, Option.some.injEq] at hr
    subst hr
    exact ⟨rfl, rfl, rfl, hexEncode_chars _⟩

/-- Witness for `webhook_signature_over_body`: the concrete delivery of
`ev8` to `biz0` (secret `"k"`). -/
theorem webhook_signature_over_body_witness :
    req0.signature = "sha256=" ++ hexEncode (hmacSha256 (strBytes "k") req0.body)
    ∧ req0.body = ev8.payload
    ∧ req0.signature = sign_payload ev8.payload "k"
    ∧ ∀ c ∈ (hexEncode (hmacSha256 (strBytes "k") req0.body)).toList, c ∈ hexDigits :=
  webhook_signature_over_body [biz0] ev8 3 biz0 "k" req0 rfl rfl rfl
